import Mathlib

/-!
# Verification of the excel_xmlwriter XML writer

Shallow embedding of src/src/lib.rs: the two escaping functions
(escape_attributes, escape_data) and the output of each XMLWriter
method, modelled over lists of characters. Rust's str::replace with a
single-character pattern replaces every occurrence of that character by
the replacement string, which is exactly a bind (flat map) over the
character list. Each writer method formats its whole output in memory
and performs a single fallible write on the sink; the sink is modelled
as a state of already-written characters together with a predicate that
decides whether a given write succeeds.
-/

/-- Rust str::replace with a one-character pattern: every occurrence of
the character c is replaced by the string rep; other characters are kept. -/
def replaceChar (c : Char) (rep : List Char) (s : List Char) : List Char :=
  s.flatMap (fun x => if x = c then rep else [x])

/-- Embedding of escape_attributes (src/src/lib.rs lines 275-282):
replace, in order, amp, double quote, lt, gt, newline. -/
def escape_attributes (s : List Char) : List Char :=
  replaceChar '\n' ("&#xA;".data)
    (replaceChar '>' ("&gt;".data)
      (replaceChar '<' ("&lt;".data)
        (replaceChar '\"' ("&quot;".data)
          (replaceChar '&' ("&amp;".data) s))))

/-- Embedding of escape_data (src/src/lib.rs lines 287-292):
replace, in order, amp, lt, gt; double quote and newline untouched. -/
def escape_data (s : List Char) : List Char :=
  replaceChar '>' ("&gt;".data)
    (replaceChar '<' ("&lt;".data)
      (replaceChar '&' ("&amp;".data) s))

/-- Single-pass characterisation of the attribute escaping, per character:
each of the five special characters goes to its entity, every other
character is kept. -/
def escAttrChar (c : Char) : List Char :=
  if c = '&' then ['&', 'a', 'm', 'p', ';']
  else if c = '\"' then ['&', 'q', 'u', 'o', 't', ';']
  else if c = '<' then ['&', 'l', 't', ';']
  else if c = '>' then ['&', 'g', 't', ';']
  else if c = '\n' then ['&', '#', 'x', 'A', ';']
  else [c]

/-- Single-pass characterisation of the data escaping, per character:
amp, lt and gt go to their entities, every other character (double quote
and newline included) is kept. -/
def escDataChar (c : Char) : List Char :=
  if c = '&' then ['&', 'a', 'm', 'p', ';']
  else if c = '<' then ['&', 'l', 't', ';']
  else if c = '>' then ['&', 'g', 't', ';']
  else [c]

theorem replaceChar_append (c : Char) (rep : List Char) (a b : List Char) :
    replaceChar c rep (a ++ b) = replaceChar c rep a ++ replaceChar c rep b :=
  List.flatMap_append a b _

theorem escape_attributes_append (a b : List Char) :
    escape_attributes (a ++ b) = escape_attributes a ++ escape_attributes b := by
  simp only [escape_attributes, replaceChar_append]

theorem escape_data_append (a b : List Char) :
    escape_data (a ++ b) = escape_data a ++ escape_data b := by
  simp only [escape_data, replaceChar_append]

theorem escape_attributes_single (x : Char) : escape_attributes [x] = escAttrChar x := by
  by_cases h1 : x = '&'
  · subst h1; rfl
  by_cases h2 : x = '\"'
  · subst h2; rfl
  by_cases h3 : x = '<'
  · subst h3; rfl
  by_cases h4 : x = '>'
  · subst h4; rfl
  by_cases h5 : x = '\n'
  · subst h5; rfl
  simp [escape_attributes, escAttrChar, replaceChar, h1, h2, h3, h4, h5]

theorem escape_data_single (x : Char) : escape_data [x] = escDataChar x := by
  by_cases h1 : x = '&'
  · subst h1; rfl
  by_cases h2 : x = '<'
  · subst h2; rfl
  by_cases h3 : x = '>'
  · subst h3; rfl
  simp [escape_data, escDataChar, replaceChar, h1, h2, h3]

/-- The chain of five sequential replacements is the same function as one
single pass over the input that maps each character through escAttrChar:
the ampersands introduced by the later replacements are never re-escaped
because the amp replacement runs first. -/
theorem escape_attributes_flatMap (s : List Char) :
    escape_attributes s = s.flatMap escAttrChar := by
  induction s with
  | nil => rfl
  | cons x t ih =>
      rw [show x :: t = [x] ++ t from rfl, escape_attributes_append,
        escape_attributes_single, ih, List.flatMap_append]
      simp

/-- The chain of three sequential replacements is one single pass through
escDataChar. -/
theorem escape_data_flatMap (s : List Char) :
    escape_data s = s.flatMap escDataChar := by
  induction s with
  | nil => rfl
  | cons x t ih =>
      rw [show x :: t = [x] ++ t from rfl, escape_data_append,
        escape_data_single, ih, List.flatMap_append]
      simp

theorem flatMap_eq_self (f : Char → List Char) :
    ∀ s : List Char, (∀ c ∈ s, f c = [c]) → s.flatMap f = s := by
  intro s
  induction s with
  | nil => intro _; rfl
  | cons x t ih =>
      intro h
      rw [List.flatMap_cons, h x (List.mem_cons_self x t),
        ih (fun c hc => h c (List.mem_cons_of_mem x hc))]
      rfl

theorem flatMap_congr_on (f g : Char → List Char) :
    ∀ s : List Char, (∀ c ∈ s, f c = g c) → s.flatMap f = s.flatMap g := by
  intro s
  induction s with
  | nil => intro _; rfl
  | cons x t ih =>
      intro h
      rw [List.flatMap_cons, List.flatMap_cons, h x (List.mem_cons_self x t),
        ih (fun c hc => h c (List.mem_cons_of_mem x hc))]

/-- C1: escape_attributes applies exactly the replacements amp, double
quote, lt, gt and newline to their entities, in that order, touching no
other characters: the concrete example from the spec holds, the chained
replacement equals a single pass through the per-character map, the map
keeps every non-special character, and a string containing none of the
five special characters is returned unchanged. -/
theorem escape_attributes_spec :
    escape_attributes ("&<>\"\n".data) = ("&amp;&lt;&gt;&quot;&#xA;".data)
    ∧ (∀ s, escape_attributes s = s.flatMap escAttrChar)
    ∧ (∀ c : Char, c ≠ '&' → c ≠ '\"' → c ≠ '<' → c ≠ '>' → c ≠ '\n' →
        escAttrChar c = [c])
    ∧ (∀ s, (∀ c ∈ s, c ≠ '&' ∧ c ≠ '\"' ∧ c ≠ '<' ∧ c ≠ '>' ∧ c ≠ '\n') →
        escape_attributes s = s) := by
  refine ⟨by decide, escape_attributes_flatMap, ?_, ?_⟩
  · intro c h1 h2 h3 h4 h5
    simp [escAttrChar, h1, h2, h3, h4, h5]
  · intro s hs
    rw [escape_attributes_flatMap]
    refine flatMap_eq_self escAttrChar s (fun c hc => ?_)
    rcases hs c hc with ⟨h1, h2, h3, h4, h5⟩
    simp [escAttrChar, h1, h2, h3, h4, h5]

theorem escape_attributes_spec_witness :
    escAttrChar 'x' = ['x'] ∧ escape_attributes ("xyz".data) = ("xyz".data) :=
  ⟨escape_attributes_spec.2.2.1 'x' (by decide) (by decide) (by decide) (by decide) (by decide),
   escape_attributes_spec.2.2.2 ("xyz".data) (by decide)⟩

/-- C2: escape_data applies, in order, only the replacements amp, lt and
gt, leaving double quotes, newlines and all other characters unchanged:
the concrete example from the spec holds, the chained replacement equals
a single pass through the per-character map, that map keeps every
character other than amp, lt, gt, and in particular keeps the double
quote and the newline. -/
theorem escape_data_spec :
    escape_data ("&<>\"".data) = ("&amp;&lt;&gt;\"".data)
    ∧ (∀ s, escape_data s = s.flatMap escDataChar)
    ∧ (∀ c : Char, c ≠ '&' → c ≠ '<' → c ≠ '>' → escDataChar c = [c])
    ∧ escDataChar '\"' = ['\"'] ∧ escDataChar '\n' = ['\n'] := by
  refine ⟨by decide, escape_data_flatMap, ?_, by decide, by decide⟩
  intro c h1 h2 h3
  simp [escDataChar, h1, h2, h3]

theorem escape_data_spec_witness :
    escDataChar 'x' = ['x'] :=
  escape_data_spec.2.2.1 'x' (by decide) (by decide) (by decide)

theorem escAttrChar_eq_escDataChar (c : Char) (hq : c ≠ '\"') (hn : c ≠ '\n') :
    escAttrChar c = escDataChar c := by
  by_cases h1 : c = '&'
  · subst h1; rfl
  by_cases h2 : c = '<'
  · subst h2; rfl
  by_cases h3 : c = '>'
  · subst h3; rfl
  simp [escAttrChar, escDataChar, h1, h2, h3, hq, hn]

/-- C9: on every string that contains neither a double quote nor a
newline the attribute escaper and the data escaper agree, so the two
functions can differ only on inputs containing one of those two
characters. -/
theorem escape_agreement (s : List Char) (h : ∀ c ∈ s, c ≠ '\"' ∧ c ≠ '\n') :
    escape_attributes s = escape_data s := by
  rw [escape_attributes_flatMap, escape_data_flatMap]
  exact flatMap_congr_on escAttrChar escDataChar s
    (fun c hc => escAttrChar_eq_escDataChar c (h c hc).1 (h c hc).2)

theorem escape_agreement_witness :
    escape_attributes ("a&<b>".data) = escape_data ("a&<b>".data) :=
  escape_agreement ("a&<b>".data) (by decide)

theorem escAttrChar_ne_nil (c : Char) : escAttrChar c ≠ [] := by
  unfold escAttrChar
  split_ifs <;> simp

theorem escDataChar_ne_nil (c : Char) : escDataChar c ≠ [] := by
  unfold escDataChar
  split_ifs <;> simp

/-- The per-character codes of the attribute escaper form a prefix code:
whenever the code of one character is a prefix of the code of another,
the two characters are equal. -/
theorem escAttrChar_prefix_eq (c d : Char) (h : escAttrChar c <+: escAttrChar d) : c = d := by
  unfold escAttrChar at h
  split_ifs at h <;>
    first
      | (subst_vars; rfl)
      | (exact absurd h (by decide))
      | (obtain ⟨t, ht⟩ := h; simp_all)

/-- The per-character codes of the data escaper form a prefix code. -/
theorem escDataChar_prefix_eq (c d : Char) (h : escDataChar c <+: escDataChar d) : c = d := by
  unfold escDataChar at h
  split_ifs at h <;>
    first
      | (subst_vars; rfl)
      | (exact absurd h (by decide))
      | (obtain ⟨t, ht⟩ := h; simp_all)

/-- A flat map through a prefix code with no empty codes is injective. -/
theorem flatMap_injective (f : Char → List Char) (hne : ∀ c, f c ≠ [])
    (hpf : ∀ c d : Char, f c <+: f d → c = d) :
    ∀ s1 s2 : List Char, s1.flatMap f = s2.flatMap f → s1 = s2 := by
  intro s1
  induction s1 with
  | nil =>
      intro s2 h
      cases s2 with
      | nil => rfl
      | cons d t =>
          rw [List.flatMap_cons] at h
          simp only [List.flatMap_nil] at h
          exact absurd (List.append_eq_nil.mp h.symm).1 (hne d)
  | cons c t ih =>
      intro s2 h
      cases s2 with
      | nil =>
          rw [List.flatMap_cons] at h
          simp only [List.flatMap_nil] at h
          exact absurd (List.append_eq_nil.mp h).1 (hne c)
      | cons d u =>
          rw [List.flatMap_cons, List.flatMap_cons] at h
          have hcd : c = d := by
            rcases List.prefix_or_prefix_of_prefix ⟨t.flatMap f, h⟩
              (List.prefix_append (f d) (u.flatMap f)) with hp | hp
            · exact hpf c d hp
            · exact (hpf d c hp).symm
          subst hcd
          rw [ih u (List.append_cancel_left h)]

/-- C10: both escapers are injective; no two distinct inputs collide onto
one escaped output, for escape_attributes as well as for escape_data. -/
theorem escape_injective :
    (∀ s1 s2 : List Char, escape_attributes s1 = escape_attributes s2 → s1 = s2)
    ∧ (∀ s1 s2 : List Char, escape_data s1 = escape_data s2 → s1 = s2) := by
  constructor
  · intro s1 s2 h
    rw [escape_attributes_flatMap, escape_attributes_flatMap] at h
    exact flatMap_injective escAttrChar escAttrChar_ne_nil escAttrChar_prefix_eq s1 s2 h
  · intro s1 s2 h
    rw [escape_data_flatMap, escape_data_flatMap] at h
    exact flatMap_injective escDataChar escDataChar_ne_nil escDataChar_prefix_eq s1 s2 h

theorem escape_injective_witness :
    ("a&b".data) = ("a&b".data) ∧ ("x<y".data) = ("x<y".data) :=
  ⟨escape_injective.1 ("a&b".data) ("a&b".data) (by decide),
   escape_injective.2 ("x<y".data) ("x<y".data) (by decide)⟩

/-- The five entity sequences that escape_attributes may emit. -/
def attrEntities : List (List Char) :=
  [['&', 'a', 'm', 'p', ';'], ['&', 'q', 'u', 'o', 't', ';'], ['&', 'l', 't', ';'],
   ['&', 'g', 't', ';'], ['&', '#', 'x', 'A', ';']]

/-- Every occurrence of an ampersand in the list starts one of the five
entity sequences: however the list is split around an ampersand, one of
the entities is a prefix of the remainder beginning at that ampersand. -/
def ampGuarded (l : List Char) : Prop :=
  ∀ l1 l2 : List Char, l = l1 ++ '&' :: l2 → ∃ e ∈ attrEntities, e <+: '&' :: l2

theorem ampGuarded_nil : ampGuarded [] := by
  intro l1 l2 h
  simp at h

theorem ampGuarded_single (c : Char) (hc : c ≠ '&') : ampGuarded [c] := by
  intro l1 l2 h
  have hm : '&' ∈ [c] := by
    rw [h]
    exact List.mem_append.mpr (Or.inr (List.mem_cons_self '&' l2))
  simp at hm
  exact absurd hm.symm hc

theorem ampGuarded_amp_head (rest : List Char) (hmem : ('&' :: rest) ∈ attrEntities)
    (hno : '&' ∉ rest) : ampGuarded ('&' :: rest) := by
  intro l1 l2 h
  cases l1 with
  | nil =>
      simp only [List.nil_append] at h
      injection h with _ h2
      subst h2
      exact ⟨'&' :: rest, hmem, List.prefix_refl _⟩
  | cons x t =>
      rw [List.cons_append] at h
      injection h with _ h2
      exact absurd (h2 ▸ List.mem_append.mpr (Or.inr (List.mem_cons_self '&' l2))) hno

theorem ampGuarded_escAttrChar (c : Char) : ampGuarded (escAttrChar c) := by
  unfold escAttrChar
  split_ifs with h1 h2 h3 h4 h5
  · exact ampGuarded_amp_head _ (by decide) (by decide)
  · exact ampGuarded_amp_head _ (by decide) (by decide)
  · exact ampGuarded_amp_head _ (by decide) (by decide)
  · exact ampGuarded_amp_head _ (by decide) (by decide)
  · exact ampGuarded_amp_head _ (by decide) (by decide)
  · exact ampGuarded_single c h1

theorem ampGuarded_append {a b : List Char} (ha : ampGuarded a) (hb : ampGuarded b) :
    ampGuarded (a ++ b) := by
  intro l1 l2 h
  rcases List.append_eq_append_iff.mp h with ⟨m, hm1, hm2⟩ | ⟨m, hm1, hm2⟩
  · exact hb m l2 hm2
  · cases m with
    | nil =>
        simp only [List.nil_append] at hm2
        exact hb [] l2 hm2.symm
    | cons x t =>
        rw [List.cons_append] at hm2
        injection hm2 with hx ht
        subst hx
        rcases ha l1 t hm1 with ⟨e, he, hp⟩
        refine ⟨e, he, ?_⟩
        have : ('&' :: t) ++ b = '&' :: l2 := by
          rw [List.cons_append, ht]
        exact this ▸ hp.trans (List.prefix_append ('&' :: t) b)

theorem ampGuarded_flatMap (s : List Char) : ampGuarded (s.flatMap escAttrChar) := by
  induction s with
  | nil => exact ampGuarded_nil
  | cons x t ih =>
      rw [List.flatMap_cons]
      exact ampGuarded_append (ampGuarded_escAttrChar x) ih

/-- C3: for every string, the escaped attribute value contains no double
quote, no lt, no gt and no raw newline at all, and every ampersand in it
starts one of the five entity sequences amp, quot, lt, gt, numeric
newline; so the later replacements never reintroduce an unescaped
special character and the first replacement is never re-escaped. -/
theorem escape_attributes_safe (s : List Char) :
    (∀ c ∈ escape_attributes s, c ≠ '\"' ∧ c ≠ '<' ∧ c ≠ '>' ∧ c ≠ '\n')
    ∧ ampGuarded (escape_attributes s) := by
  rw [escape_attributes_flatMap]
  refine ⟨?_, ampGuarded_flatMap s⟩
  intro c hc
  rcases List.mem_flatMap.mp hc with ⟨a, _, hca⟩
  revert hca
  unfold escAttrChar
  split_ifs with h1 h2 h3 h4 h5 <;> intro hca
  · fin_cases hca <;> decide
  · fin_cases hca <;> decide
  · fin_cases hca <;> decide
  · fin_cases hca <;> decide
  · fin_cases hca <;> decide
  · simp at hca
    subst hca
    exact ⟨h2, h3, h4, h5⟩

theorem escape_attributes_safe_witness :
    (¬ ('m' = '\"') ∧ ¬ ('m' = '<') ∧ ¬ ('m' = '>') ∧ ¬ ('m' = '\n'))
    ∧ ∃ e ∈ attrEntities, e <+: '&' :: ("amp;b".data) :=
  ⟨(escape_attributes_safe ("a&b".data)).1 'm' (by decide),
   (escape_attributes_safe ("a&b".data)).2 ['a'] ("amp;b".data) (by decide)⟩

/-- One serialised attribute: a leading space, the raw name, an equals
sign, then the escaped value between double quotes (the format string in
every writer method of src/src/lib.rs). -/
def attrPair (a : List Char × List Char) : List Char :=
  [' '] ++ a.1 ++ ['=', '\"'] ++ escape_attributes a.2 ++ ['\"']

/-- The attribute_str accumulation loop shared by every tag-writing
method (for attribute in attributes, push the formatted pair). -/
def attribute_str (attrs : List (List Char × List Char)) : List Char :=
  attrs.foldl (fun acc a => acc ++ attrPair a) []

/-- Characters written by xml_declaration (src/src/lib.rs lines 74-80):
the fixed literal and the newline appended by writeln. -/
def xml_declaration_out : List Char :=
  ("<?xml version=\"1.0\" encoding=\"UTF-8\" standalone=\"yes\"?>\n".data)

/-- Characters written by xml_start_tag (src/src/lib.rs lines 98-107). -/
def xml_start_tag_out (tag : List Char) (attrs : List (List Char × List Char)) : List Char :=
  ['<'] ++ tag ++ attribute_str attrs ++ ['>']

/-- Characters written by xml_end_tag (src/src/lib.rs lines 125-127). -/
def xml_end_tag_out (tag : List Char) : List Char :=
  ['<', '/'] ++ tag ++ ['>']

/-- Characters written by xml_empty_tag (src/src/lib.rs lines 145-154). -/
def xml_empty_tag_out (tag : List Char) (attrs : List (List Char × List Char)) : List Char :=
  ['<'] ++ tag ++ attribute_str attrs ++ ['/', '>']

/-- Characters written by xml_data_element (src/src/lib.rs lines 172-189). -/
def xml_data_element_out (tag data : List Char) (attrs : List (List Char × List Char)) :
    List Char :=
  ['<'] ++ tag ++ attribute_str attrs ++ ['>'] ++ escape_data data ++ ['<', '/'] ++ tag ++ ['>']

/-- Characters written by xml_string_element (src/src/lib.rs lines
192-206); the u32 index is displayed in decimal. -/
def xml_string_element_out (index : Nat) (attrs : List (List Char × List Char)) : List Char :=
  ("<c".data) ++ attribute_str attrs ++ (" t=\"s\"><v>".data)
    ++ ((toString index).data) ++ ("</v></c>".data)

/-- Characters written by xml_number_element (src/src/lib.rs lines
209-224). The f64 argument is represented by the character list its Rust
default Display produces; the crate's own test test_xml_number_element
(src/src/lib.rs lines 449-461) pins that 99.0 renders as 99. -/
def xml_number_element_out (number : List Char) (attrs : List (List Char × List Char)) :
    List Char :=
  ("<c".data) ++ attribute_str attrs ++ (" t=\"s\"><v>".data) ++ number ++ ("</v></c>".data)

/-- Characters written by xml_formula_element (src/src/lib.rs lines
227-248); the f64 result is represented by its rendered character list. -/
def xml_formula_element_out (formula result : List Char)
    (attrs : List (List Char × List Char)) : List Char :=
  ("<c".data) ++ attribute_str attrs ++ ("><f>".data) ++ escape_data formula
    ++ ("</f><v>".data) ++ result ++ ("</v></c>".data)

/-- Characters written by xml_si_element (src/src/lib.rs lines 251-266). -/
def xml_si_element_out (str : List Char) (attrs : List (List Char × List Char)) : List Char :=
  ("<si><t".data) ++ attribute_str attrs ++ (">".data) ++ escape_data str ++ ("</t></si>".data)

/-- Characters written by xml_rich_si_element (src/src/lib.rs lines
269-271): the argument is passed through verbatim. -/
def xml_rich_si_element_out (str : List Char) : List Char :=
  ("<si>".data) ++ str ++ ("</si>".data)

theorem foldl_append_pairs (attrs : List (List Char × List Char)) :
    ∀ acc : List Char,
      attrs.foldl (fun acc a => acc ++ attrPair a) acc = acc ++ (attrs.map attrPair).flatten := by
  induction attrs with
  | nil => intro acc; simp
  | cons p t ih =>
      intro acc
      simp only [List.foldl_cons, List.map_cons, List.flatten_cons, ih, List.append_assoc]

/-- The imperative accumulation loop concatenates exactly one formatted
fragment per attribute, in list order. -/
theorem attribute_str_eq_flatten (attrs : List (List Char × List Char)) :
    attribute_str attrs = (attrs.map attrPair).flatten := by
  rw [attribute_str, foldl_append_pairs]
  rfl

/-- C5: xml_start_tag emits the opening angle and the tag name, then one
fragment per attribute in exactly the order supplied (duplicates kept as
duplicates), each fragment being a single leading space, the name, and
the escaped value between double quotes, then the closing angle; an
empty attribute list yields just the angle-bracketed name, and a
duplicate attribute name is emitted twice. -/
theorem xml_start_tag_spec :
    (∀ tag attrs, xml_start_tag_out tag attrs =
        ['<'] ++ tag ++ (attrs.map attrPair).flatten ++ ['>'])
    ∧ (∀ a : List Char × List Char,
        attrPair a = [' '] ++ a.1 ++ ['=', '\"'] ++ escape_attributes a.2 ++ ['\"'])
    ∧ (∀ tag, xml_start_tag_out tag [] = ['<'] ++ tag ++ ['>'])
    ∧ xml_start_tag_out ("foo".data)
        [(("a".data), ("1".data)), (("a".data), ("2".data))] =
        ("<foo a=\"1\" a=\"2\">".data) := by
  refine ⟨?_, fun a => rfl, fun tag => by simp [xml_start_tag_out, attribute_str], by decide⟩
  intro tag attrs
  rw [xml_start_tag_out, attribute_str_eq_flatten]

/-- C6: the characters written by xml_data_element are exactly the
characters xml_start_tag would write, then the escaped text, then the
characters xml_end_tag would write. -/
theorem xml_data_element_decomposition (tag data : List Char)
    (attrs : List (List Char × List Char)) :
    xml_data_element_out tag data attrs =
      xml_start_tag_out tag attrs ++ escape_data data ++ xml_end_tag_out tag := by
  simp [xml_data_element_out, xml_start_tag_out, xml_end_tag_out, List.append_assoc]

/-- C7: xml_number_element emits the cell opener, the serialised
attributes, the shared-string type marker, then the value's rendered
decimal text inside the v element: the same wire shape as
xml_string_element, and on the rendering 99 of the value 99.0 with the
attribute span=8 it writes exactly the claimed bytes. -/
theorem xml_number_element_spec :
    (∀ number attrs, xml_number_element_out number attrs =
        ("<c".data) ++ attribute_str attrs ++ (" t=\"s\"><v>".data)
          ++ number ++ ("</v></c>".data))
    ∧ (∀ (index : Nat) attrs,
        xml_string_element_out index attrs =
          xml_number_element_out ((toString index).data) attrs)
    ∧ xml_number_element_out ("99".data) [(("span".data), ("8".data))] =
        ("<c span=\"8\" t=\"s\"><v>99</v></c>".data) :=
  ⟨fun _ _ => rfl, fun _ _ => rfl, by decide⟩

theorem getLast?_append_some {α : Type} (l : List α) {m : List α} {c : α}
    (h : m.getLast? = some c) : (l ++ m).getLast? = some c := by
  rw [List.getLast?_append, h]
  rfl

/-- C8: xml_declaration writes exactly the fixed literal followed by one
newline, and it is the only operation whose output ends in whitespace:
every other operation's output ends in a closing angle bracket, which is
not a whitespace character. -/
theorem xml_declaration_newline_spec :
    xml_declaration_out =
      ("<?xml version=\"1.0\" encoding=\"UTF-8\" standalone=\"yes\"?>".data) ++ ['\n']
    ∧ ('\n').isWhitespace = true
    ∧ ('>').isWhitespace = false
    ∧ (∀ tag attrs, (xml_start_tag_out tag attrs).getLast? = some '>')
    ∧ (∀ tag, (xml_end_tag_out tag).getLast? = some '>')
    ∧ (∀ tag attrs, (xml_empty_tag_out tag attrs).getLast? = some '>')
    ∧ (∀ tag data attrs, (xml_data_element_out tag data attrs).getLast? = some '>')
    ∧ (∀ (index : Nat) attrs, (xml_string_element_out index attrs).getLast? = some '>')
    ∧ (∀ number attrs, (xml_number_element_out number attrs).getLast? = some '>')
    ∧ (∀ formula result attrs,
        (xml_formula_element_out formula result attrs).getLast? = some '>')
    ∧ (∀ str attrs, (xml_si_element_out str attrs).getLast? = some '>')
    ∧ (∀ str, (xml_rich_si_element_out str).getLast? = some '>') := by
  refine ⟨by decide, by decide, by decide, ?_, ?_, ?_, ?_, ?_, ?_, ?_, ?_, ?_⟩
  · intro tag attrs
    unfold xml_start_tag_out
    repeat apply getLast?_append_some
    decide
  · intro tag
    unfold xml_end_tag_out
    repeat apply getLast?_append_some
    decide
  · intro tag attrs
    unfold xml_empty_tag_out
    repeat apply getLast?_append_some
    decide
  · intro tag data attrs
    unfold xml_data_element_out
    repeat apply getLast?_append_some
    decide
  · intro index attrs
    unfold xml_string_element_out
    repeat apply getLast?_append_some
    decide
  · intro number attrs
    unfold xml_number_element_out
    repeat apply getLast?_append_some
    decide
  · intro formula result attrs
    unfold xml_formula_element_out
    repeat apply getLast?_append_some
    decide
  · intro str attrs
    unfold xml_si_element_out
    repeat apply getLast?_append_some
    decide
  · intro str
    unfold xml_rich_si_element_out
    repeat apply getLast?_append_some
    decide

/-- Model of one fallible write on the underlying sink: canWrite decides,
from the characters already written and the characters of the attempted
chunk, whether the write call succeeds; on success the sink holds the old
contents followed by the whole chunk, on failure an error is raised. In
the Rust source every writer method formats its complete output in memory
and performs exactly one write macro call on the file handle, whose
failure aborts the call through expect at the point of occurrence. -/
def sinkWrite (canWrite : List Char → List Char → Bool) (written chunk : List Char) :
    Except Unit (List Char) :=
  if canWrite written chunk then Except.ok (written ++ chunk) else Except.error ()

/-- Effect of xml_declaration on the sink. -/
def xml_declarationW (canWrite : List Char → List Char → Bool) (written : List Char) :
    Except Unit (List Char) :=
  sinkWrite canWrite written xml_declaration_out

/-- Effect of xml_start_tag on the sink. -/
def xml_start_tagW (canWrite : List Char → List Char → Bool) (written tag : List Char)
    (attrs : List (List Char × List Char)) : Except Unit (List Char) :=
  sinkWrite canWrite written (xml_start_tag_out tag attrs)

/-- Effect of xml_end_tag on the sink. -/
def xml_end_tagW (canWrite : List Char → List Char → Bool) (written tag : List Char) :
    Except Unit (List Char) :=
  sinkWrite canWrite written (xml_end_tag_out tag)

/-- Effect of xml_empty_tag on the sink. -/
def xml_empty_tagW (canWrite : List Char → List Char → Bool) (written tag : List Char)
    (attrs : List (List Char × List Char)) : Except Unit (List Char) :=
  sinkWrite canWrite written (xml_empty_tag_out tag attrs)

/-- Effect of xml_data_element on the sink. -/
def xml_data_elementW (canWrite : List Char → List Char → Bool)
    (written tag data : List Char) (attrs : List (List Char × List Char)) :
    Except Unit (List Char) :=
  sinkWrite canWrite written (xml_data_element_out tag data attrs)

/-- Effect of xml_string_element on the sink. -/
def xml_string_elementW (canWrite : List Char → List Char → Bool) (written : List Char)
    (index : Nat) (attrs : List (List Char × List Char)) : Except Unit (List Char) :=
  sinkWrite canWrite written (xml_string_element_out index attrs)

/-- Effect of xml_number_element on the sink. -/
def xml_number_elementW (canWrite : List Char → List Char → Bool)
    (written number : List Char) (attrs : List (List Char × List Char)) :
    Except Unit (List Char) :=
  sinkWrite canWrite written (xml_number_element_out number attrs)

/-- Effect of xml_formula_element on the sink. -/
def xml_formula_elementW (canWrite : List Char → List Char → Bool)
    (written formula result : List Char) (attrs : List (List Char × List Char)) :
    Except Unit (List Char) :=
  sinkWrite canWrite written (xml_formula_element_out formula result attrs)

/-- Effect of xml_si_element on the sink. -/
def xml_si_elementW (canWrite : List Char → List Char → Bool) (written str : List Char)
    (attrs : List (List Char × List Char)) : Except Unit (List Char) :=
  sinkWrite canWrite written (xml_si_element_out str attrs)

/-- Effect of xml_rich_si_element on the sink. -/
def xml_rich_si_elementW (canWrite : List Char → List Char → Bool)
    (written str : List Char) : Except Unit (List Char) :=
  sinkWrite canWrite written (xml_rich_si_element_out str)

/-- C4: for every writer operation, when the single underlying sink write
succeeds the operation succeeds and the sink is extended by exactly the
operation's output once (no retry, no partial-success state), and when
the sink write fails the failure is surfaced at the point of occurrence
rather than silently swallowed. -/
theorem writer_error_propagation (canWrite : List Char → List Char → Bool)
    (written tag data number formula result rich str : List Char)
    (attrs : List (List Char × List Char)) (index : Nat) :
    (canWrite written xml_declaration_out = true →
      xml_declarationW canWrite written = Except.ok (written ++ xml_declaration_out))
    ∧ (canWrite written xml_declaration_out = false →
      xml_declarationW canWrite written = Except.error ())
    ∧ (canWrite written (xml_start_tag_out tag attrs) = true →
      xml_start_tagW canWrite written tag attrs =
        Except.ok (written ++ xml_start_tag_out tag attrs))
    ∧ (canWrite written (xml_start_tag_out tag attrs) = false →
      xml_start_tagW canWrite written tag attrs = Except.error ())
    ∧ (canWrite written (xml_end_tag_out tag) = true →
      xml_end_tagW canWrite written tag = Except.ok (written ++ xml_end_tag_out tag))
    ∧ (canWrite written (xml_end_tag_out tag) = false →
      xml_end_tagW canWrite written tag = Except.error ())
    ∧ (canWrite written (xml_empty_tag_out tag attrs) = true →
      xml_empty_tagW canWrite written tag attrs =
        Except.ok (written ++ xml_empty_tag_out tag attrs))
    ∧ (canWrite written (xml_empty_tag_out tag attrs) = false →
      xml_empty_tagW canWrite written tag attrs = Except.error ())
    ∧ (canWrite written (xml_data_element_out tag data attrs) = true →
      xml_data_elementW canWrite written tag data attrs =
        Except.ok (written ++ xml_data_element_out tag data attrs))
    ∧ (canWrite written (xml_data_element_out tag data attrs) = false →
      xml_data_elementW canWrite written tag data attrs = Except.error ())
    ∧ (canWrite written (xml_string_element_out index attrs) = true →
      xml_string_elementW canWrite written index attrs =
        Except.ok (written ++ xml_string_element_out index attrs))
    ∧ (canWrite written (xml_string_element_out index attrs) = false →
      xml_string_elementW canWrite written index attrs = Except.error ())
    ∧ (canWrite written (xml_number_element_out number attrs) = true →
      xml_number_elementW canWrite written number attrs =
        Except.ok (written ++ xml_number_element_out number attrs))
    ∧ (canWrite written (xml_number_element_out number attrs) = false →
      xml_number_elementW canWrite written number attrs = Except.error ())
    ∧ (canWrite written (xml_formula_element_out formula result attrs) = true →
      xml_formula_elementW canWrite written formula result attrs =
        Except.ok (written ++ xml_formula_element_out formula result attrs))
    ∧ (canWrite written (xml_formula_element_out formula result attrs) = false →
      xml_formula_elementW canWrite written formula result attrs = Except.error ())
    ∧ (canWrite written (xml_si_element_out str attrs) = true →
      xml_si_elementW canWrite written str attrs =
        Except.ok (written ++ xml_si_element_out str attrs))
    ∧ (canWrite written (xml_si_element_out str attrs) = false →
      xml_si_elementW canWrite written str attrs = Except.error ())
    ∧ (canWrite written (xml_rich_si_element_out rich) = true →
      xml_rich_si_elementW canWrite written rich =
        Except.ok (written ++ xml_rich_si_element_out rich))
    ∧ (canWrite written (xml_rich_si_element_out rich) = false →
      xml_rich_si_elementW canWrite written rich = Except.error ()) := by
  refine ⟨?_, ?_, ?_, ?_, ?_, ?_, ?_, ?_, ?_, ?_, ?_, ?_, ?_, ?_, ?_, ?_, ?_, ?_, ?_, ?_⟩ <;>
    intro h <;>
    simp [xml_declarationW, xml_start_tagW, xml_end_tagW, xml_empty_tagW,
      xml_data_elementW, xml_string_elementW, xml_number_elementW,
      xml_formula_elementW, xml_si_elementW, xml_rich_si_elementW, sinkWrite, h]

theorem writer_error_propagation_witness :
    xml_declarationW (fun _ _ => true) [] = Except.ok ([] ++ xml_declaration_out)
    ∧ xml_declarationW (fun _ _ => false) [] = Except.error ()
    ∧ xml_start_tagW (fun _ _ => false) [] ("foo".data) [] = Except.error () := by
  refine ⟨?_, ?_, ?_⟩
  · exact (writer_error_propagation (fun _ _ => true) [] ("foo".data) [] [] [] [] [] []
      [] 0).1 rfl
  · exact (writer_error_propagation (fun _ _ => false) [] ("foo".data) [] [] [] [] [] []
      [] 0).2.1 rfl
  · exact (writer_error_propagation (fun _ _ => false) [] ("foo".data) [] [] [] [] [] []
      [] 0).2.2.2.1 rfl
